import Mathlib

/-!
Verification of the GitHub bridge import iterator (`bridge/github/iterator.go`).

The iterator walks a remote issue tracker page by page along four axes
(issues, timeline items, issue edits, comment edits).  The Go code threads
mutable state (pagination variables, indices, a sticky error) through a
family of advance methods; here the state is an explicit `Iterator`
structure and every advance method is a pure state-passing function.

The GraphQL result types (`issueTimelineQuery`, `issueEditQuery`,
`commentEditQuery`, `pageInfo`, `userContentEdit`, ...) are declared in a
file of the repository that is not part of the sources at hand; they are
modelled from the spec's data model (RemoteIssue / TimelineItem /
UserContentEdit / Cursor State, spec section 3).  All control flow is
translated directly from `iterator.go`.

The remote service (`githubv4.Client.Query`) is modelled as an `Executor`:
one response function per query shape, consuming the pagination variables
the Go code stores in the corresponding `variables` map.  Every executor
invocation is recorded in a request log so that "how many fetches did this
call perform" is a provable quantity.  The shared cancellable context is
modelled by its observable `ctx.Err()` value (`ctxErr`); `gc.Query` run
under a cancelled context fails with that error, as the real client does.
-/

namespace Github

/-- Transport-level error returned by the query executor, or the error of a
cancelled context. -/
inductive GoError where
  | transport (msg : String)
  | canceled
  deriving DecidableEq, Repr, Inhabited

/-- Modelled from the spec: Cursor State per paginated axis — opaque
forward/backward continuation tokens and next/previous-page availability
(the `PageInfo` object of each connection).  Zero value: empty cursors,
no further pages. -/
structure pageInfo where
  endCursor : String
  startCursor : String
  hasNextPage : Bool
  hasPreviousPage : Bool
  deriving DecidableEq, Repr, Inhabited

/-- Modelled from the spec: UserContentEdit — an optional diff; an absent
(`none`, Go nil pointer) or empty diff denotes history the remote no longer
retains.  Only the diff is consulted by the iterator. -/
structure userContentEdit where
  diff : Option String
  deriving DecidableEq, Repr, Inhabited

/-- Modelled from the spec: an ordered, partially-loaded UserContentEdit
list with its own Cursor State (`UserContentEdits` connection). -/
structure userContentEditConnection where
  nodes : List userContentEdit
  pageInfo : pageInfo
  deriving DecidableEq, Repr, Inhabited

/-- Modelled from the spec: the comment payload of a timeline item,
carrying a nested edit list with its own Cursor State. -/
structure issueComment where
  userContentEdits : userContentEditConnection
  deriving DecidableEq, Repr, Inhabited

/-- Modelled from the spec: TimelineItem — discriminated variant tag
(`Typename`, comment vs. other event kinds) plus, for comments, the nested
edit list. -/
structure timelineItem where
  typename : String
  issueComment : issueComment
  deriving DecidableEq, Repr, Inhabited

/-- Modelled from the spec: a timeline connection edge — the item plus the
opaque cursor naming its position (used to re-anchor the comment-edit
fallback query). -/
structure timelineEdge where
  cursor : String
  node : timelineItem
  deriving DecidableEq, Repr, Inhabited

/-- Modelled from the spec: the ordered, partially-loaded TimelineItem list
of an issue with its own Cursor State. -/
structure timelineItemsConnection where
  edges : List timelineEdge
  pageInfo : pageInfo
  deriving DecidableEq, Repr, Inhabited

/-- Modelled from the spec: RemoteIssue — identifier, partially-loaded
timeline, and the issue's own edit history (Go node type `issueTimeline`). -/
structure issueTimeline where
  id : String
  timelineItems : timelineItemsConnection
  userContentEdits : userContentEditConnection
  deriving DecidableEq, Repr, Inhabited

/-- Modelled from the spec: the page of issues returned by the primary
query (`Repository.Issues`): issue nodes plus the issue-axis Cursor
State. -/
structure issuesConnection where
  nodes : List issueTimeline
  pageInfo : pageInfo
  deriving DecidableEq, Repr, Inhabited

/-- Modelled from the spec: result shape of the primary (timeline) query —
`query.Repository.Issues`. -/
structure issueTimelineQuery where
  issues : issuesConnection
  deriving DecidableEq, Repr, Inhabited

/-- Modelled from the spec: one issue node of the dedicated issue-edit
fallback query; only its `UserContentEdits` connection is consulted. -/
structure issueEditNode where
  userContentEdits : userContentEditConnection
  deriving DecidableEq, Repr, Inhabited

/-- Modelled from the spec: result shape of the dedicated issue-edit
fallback query — `query.Repository.Issues.Nodes`. -/
structure issueEditQuery where
  nodes : List issueEditNode
  deriving DecidableEq, Repr, Inhabited

/-- Modelled from the spec: one timeline node of the comment-edit fallback
query; only the comment's `UserContentEdits` connection is consulted. -/
structure commentEditTimelineNode where
  issueComment : issueComment
  deriving DecidableEq, Repr, Inhabited

/-- Modelled from the spec: one issue node of the comment-edit fallback
query — `.Timeline.Nodes`. -/
structure commentEditIssueNode where
  timelineNodes : List commentEditTimelineNode
  deriving DecidableEq, Repr, Inhabited

/-- Modelled from the spec: result shape of the dedicated comment-edit
fallback query — `query.Repository.Issues.Nodes`. -/
structure commentEditQuery where
  nodes : List commentEditIssueNode
  deriving DecidableEq, Repr, Inhabited

/-- The pagination variables of `timeline.variables` read or written by the
iterator.  `none` models the typed nil `(*githubv4.String)(nil)`, `some s`
a concrete `githubv4.String` token (possibly empty). -/
structure timelineVars where
  issueAfter : Option String
  timelineAfter : Option String
  issueEditBefore : Option String
  commentEditBefore : Option String
  deriving DecidableEq, Repr, Inhabited

/-- The pagination variables of `issueEdit.variables` read or written by
the iterator. -/
structure issueEditVars where
  issueAfter : Option String
  issueEditBefore : Option String
  deriving DecidableEq, Repr, Inhabited

/-- The pagination variables of `commentEdit.variables` read or written by
the iterator. -/
structure commentEditVars where
  issueAfter : Option String
  timelineAfter : Option String
  commentEditBefore : Option String
  deriving DecidableEq, Repr, Inhabited

/-- A request descriptor handed to the query executor: the query shape plus
the snapshot of its pagination variables.  Every `gc.Query` call is logged
as one `Request`. -/
inductive Request where
  | timeline (v : timelineVars)
  | issueEdit (v : issueEditVars)
  | commentEdit (v : commentEditVars)
  deriving DecidableEq, Repr

/-- The opaque query executor (`githubv4.Client` + transport): one blocking
call per query shape, returning a typed page or failing with a transport
error. -/
structure Executor where
  timelineQ : timelineVars → Except GoError issueTimelineQuery
  issueEditQ : issueEditVars → Except GoError issueEditQuery
  commentEditQ : commentEditVars → Except GoError commentEditQuery

/-- The whole iterator state (Go struct `iterator` with its three nested
sub-iterators), plus the request log used to observe fetch activity.
`ctxErr` is the observable state of the shared cancellable context. -/
structure Iterator where
  ctxErr : Option GoError
  err : Option GoError
  -- timeline sub-iterator (Go `timelineIterator`)
  tlIndex : Int
  tlIssueEditIndex : Int
  tlCommentEditIndex : Int
  tlQuery : issueTimelineQuery
  tlVars : timelineVars
  lastEndCursor : String
  -- issue edit sub-iterator (Go `issueEditIterator`)
  ieIndex : Int
  ieQuery : issueEditQuery
  ieVars : issueEditVars
  -- comment edit sub-iterator (Go `commentEditIterator`)
  ceIndex : Int
  ceQuery : commentEditQuery
  ceVars : commentEditVars
  -- instrumentation: every executor invocation in order
  log : List Request
  deriving DecidableEq, Repr, Inhabited

/-- `NewIterator`: initial state (indices `-1`, all pagination cursors the
typed nil pointer, zero-valued query results, no error, fresh context). -/
def NewIterator : Iterator where
  ctxErr := none
  err := none
  tlIndex := -1
  tlIssueEditIndex := -1
  tlCommentEditIndex := -1
  tlQuery := default
  tlVars := { issueAfter := none, timelineAfter := none,
              issueEditBefore := none, commentEditBefore := none }
  lastEndCursor := ""
  ieIndex := -1
  ieQuery := default
  ieVars := { issueAfter := none, issueEditBefore := none }
  ceIndex := -1
  ceQuery := default
  ceVars := { issueAfter := none, timelineAfter := none, commentEditBefore := none }
  log := []

/-- `Error` accessor: the last (sticky) error. -/
def Error (i : Iterator) : Option GoError := i.err

/-- `initIssueEditQueryVariables`: reset the issue-edit fallback variables;
`issueAfter` is copied from the current timeline variables. -/
def initIssueEditQueryVariables (i : Iterator) : Iterator :=
  { i with ieVars := { issueAfter := i.tlVars.issueAfter, issueEditBefore := none } }

/-- `initCommentEditQueryVariables`: reset the comment-edit fallback
variables; `issueAfter` is copied from the current timeline variables. -/
def initCommentEditQueryVariables (i : Iterator) : Iterator :=
  { i with ceVars := { issueAfter := i.tlVars.issueAfter, timelineAfter := none,
                       commentEditBefore := none } }

/-- `reverseEdits`: the in-place two-pointer swap loop
(`for i, j := 0, len-1; i < j; i, j = i+1, j-1`), on an array.  The first
argument counts the remaining loop iterations structurally; `edits.length`
iterations always suffice since the pointers close in by two per step. -/
def reverseEditsAux : Nat → Array userContentEdit → Nat → Nat → Array userContentEdit
  | 0, edits, _, _ => edits
  | Nat.succ n, edits, a, b =>
    if a < b then reverseEditsAux n (edits.swap! a b) (a + 1) (b - 1) else edits

/-- `reverseEdits`: reverse a freshly fetched (newest-first) edit list. -/
def reverseEdits (edits : List userContentEdit) : List userContentEdit :=
  (reverseEditsAux edits.length edits.toArray 0 (edits.length - 1)).toList

/-- `reverseTimelineEditNodes`: reverse the edit lists embedded in the
freshly fetched issue page — the issue's own edits and the edits of every
`IssueComment` timeline item.  (In Go the reversal mutates the slices of
`Nodes[0]` through a copied header; here the node is rebuilt.)  Callers
guard against an empty issue list (Go would panic on `Nodes[0]`). -/
def reverseTimelineEditNodes (i : Iterator) : Iterator :=
  match i.tlQuery.issues.nodes with
  | [] => i
  | node :: rest =>
    let node := { node with
      userContentEdits := { node.userContentEdits with
        nodes := reverseEdits node.userContentEdits.nodes },
      timelineItems := { node.timelineItems with
        edges := node.timelineItems.edges.map (fun ce =>
          if ce.node.typename = "IssueComment" then
            { ce with node := { ce.node with issueComment := { ce.node.issueComment with
                userContentEdits := { ce.node.issueComment.userContentEdits with
                  nodes := reverseEdits ce.node.issueComment.userContentEdits.nodes } } } }
          else ce) } }
    { i with tlQuery := { issues := { i.tlQuery.issues with nodes := node :: rest } } }

/-- `gc.Query` for the timeline query: the call is bounded by the shared
cancellable context — a cancelled context fails the call with its error. -/
def gcTimelineQuery (ex : Executor) (i : Iterator) : Except GoError issueTimelineQuery :=
  match i.ctxErr with
  | some e => Except.error e
  | none => ex.timelineQ i.tlVars

/-- `gc.Query` for the issue-edit fallback query. -/
def gcIssueEditQuery (ex : Executor) (i : Iterator) : Except GoError issueEditQuery :=
  match i.ctxErr with
  | some e => Except.error e
  | none => ex.issueEditQ i.ieVars

/-- `gc.Query` for the comment-edit fallback query. -/
def gcCommentEditQuery (ex : Executor) (i : Iterator) : Except GoError commentEditQuery :=
  match i.ctxErr with
  | some e => Except.error e
  | none => ex.commentEditQ i.ceVars

/-- `queryIssue`: fetch one issue page; on failure record the sticky error;
an empty page is exhaustion; otherwise reverse the embedded edit lists. -/
def queryIssue (ex : Executor) (i : Iterator) : Bool × Iterator :=
  let i := { i with log := i.log ++ [Request.timeline i.tlVars] }
  match gcTimelineQuery ex i with
  | Except.error e => (false, { i with err := some e })
  | Except.ok q =>
    let i := { i with tlQuery := q }
    if q.issues.nodes.length = 0 then (false, i)
    else (true, reverseTimelineEditNodes i)

/-- `NextIssue`: advance the issue axis; only one issue is queried per
call.  The second branch captures `issues` before the fetch, exactly as the
Go code does. -/
def NextIssue (ex : Executor) (i : Iterator) : Bool × Iterator :=
  if i.err.isSome then (false, i)
  else if i.tlVars.issueAfter = none then
    let (nextIssue, i) := queryIssue ex i
    let issues := i.tlQuery.issues
    (nextIssue, { i with tlVars := { i.tlVars with issueAfter := some issues.pageInfo.endCursor } })
  else
    let issues := i.tlQuery.issues
    if !issues.pageInfo.hasNextPage then (false, i)
    else
      let i := { i with tlVars := { i.tlVars with timelineAfter := none }, tlIndex := -1 }
      let timelineEndCursor := (issues.nodes.getD 0 default).timelineItems.pageInfo.endCursor
      let i := { i with lastEndCursor := timelineEndCursor }
      let (nextIssue, i) := queryIssue ex i
      (nextIssue, { i with tlVars := { i.tlVars with issueAfter := some issues.pageInfo.endCursor } })

/-- `IssueValue`: the current issue (`Issues.Nodes[0]`). -/
def IssueValue (i : Iterator) : issueTimeline :=
  i.tlQuery.issues.nodes.getD 0 default

/-- `NextTimelineItem`: advance the timeline axis, fetching a continuation
page when the loaded page is consumed. -/
def NextTimelineItem (ex : Executor) (i : Iterator) : Bool × Iterator :=
  if i.err.isSome then (false, i)
  else if i.ctxErr.isSome then (false, i)
  else
    let timelineItems := (i.tlQuery.issues.nodes.getD 0 default).timelineItems
    if timelineItems.edges.length = 0 then (false, i)
    else if i.tlIndex < (timelineItems.edges.length : Int) - 1 then
      (true, { i with tlIndex := i.tlIndex + 1 })
    else if !timelineItems.pageInfo.hasNextPage then (false, i)
    else
      let i := { i with lastEndCursor := timelineItems.pageInfo.endCursor,
                        tlVars := { i.tlVars with
                          timelineAfter := some timelineItems.pageInfo.endCursor } }
      let i := { i with log := i.log ++ [Request.timeline i.tlVars] }
      match gcTimelineQuery ex i with
      | Except.error e => (false, { i with err := some e })
      | Except.ok q =>
        let i := { i with tlQuery := q }
        let timelineItems := (q.issues.nodes.getD 0 default).timelineItems
        if timelineItems.edges.length = 0 then (false, i)
        else (true, { reverseTimelineEditNodes i with tlIndex := 0 })

/-- `TimelineItemValue`: the current timeline item
(`TimelineItems.Edges[timeline.index].Node`). -/
def TimelineItemValue (i : Iterator) : timelineItem :=
  (((i.tlQuery.issues.nodes.getD 0 default).timelineItems.edges.getD
      i.tlIndex.toNat default)).node

/-- `IssueEditValue`: the current issue edit — from the fallback query when
`timeline.issueEdit.index == -2`, from the embedded list otherwise. -/
def IssueEditValue (i : Iterator) : userContentEdit :=
  if i.tlIssueEditIndex = -2 then
    (i.ieQuery.nodes.getD 0 default).userContentEdits.nodes.getD i.ieIndex.toNat default
  else
    (i.tlQuery.issues.nodes.getD 0 default).userContentEdits.nodes.getD
      i.tlIssueEditIndex.toNat default

/-- `CommentEditValue`: the current comment edit — from the fallback query
when `timeline.commentEdit.index == -2`, from the embedded list of the
current timeline item otherwise. -/
def CommentEditValue (i : Iterator) : userContentEdit :=
  if i.tlCommentEditIndex = -2 then
    ((i.ceQuery.nodes.getD 0 default).timelineNodes.getD 0
        default).issueComment.userContentEdits.nodes.getD i.ceIndex.toNat default
  else
    ((i.tlQuery.issues.nodes.getD 0 default).timelineItems.edges.getD i.tlIndex.toNat
        default).node.issueComment.userContentEdits.nodes.getD i.tlCommentEditIndex.toNat default

/-- Rebuild an issue-edit fallback result with the head node's edit list
replaced (the in-place `reverseEdits(issueEdits.Nodes)` seen through the
stored query). -/
def setHeadIssueEditNodes (q : issueEditQuery) (edits : List userContentEdit) :
    issueEditQuery :=
  match q.nodes with
  | [] => q
  | n :: rest =>
    { nodes := { n with userContentEdits := { n.userContentEdits with nodes := edits } } :: rest }

/-- Rebuild a comment-edit fallback result with the head comment's edit
list replaced (the in-place `reverseEdits(commentEdits.Nodes)` seen through
the stored query). -/
def setHeadCommentEditNodes (q : commentEditQuery) (edits : List userContentEdit) :
    commentEditQuery :=
  match q.nodes with
  | [] => q
  | n :: rest =>
    match n.timelineNodes with
    | [] => q
    | t :: trest =>
      { nodes := { timelineNodes :=
          { issueComment := { userContentEdits :=
              { t.issueComment.userContentEdits with nodes := edits } } } :: trest } :: rest }

/-- Which of the three mutually recursive issue/comment-edit procedures to
run: the advance method, the skip helper, or the fallback fetch. -/
inductive EditCall where
  | next
  | valid
  | query
  deriving DecidableEq, Repr

/-- The mutually recursive triple `NextIssueEdit` / `nextValidIssueEdit` /
`queryIssueEdit`, fused into a single function over a call tag and made
total by fuel (`none` = fuel exhausted; the Go recursion carries no fuel —
theorem `c10` shows enough fuel always exists when the executor serves a
well-founded page chain). -/
def issueEditStep (ex : Executor) : Nat → EditCall → Iterator → Option Bool × Iterator
  | 0, _, i => (none, i)
  | Nat.succ fuel, EditCall.next, i =>
    if i.err.isSome then (some false, i)
    else if i.ctxErr.isSome then (some false, i)
    else if i.tlIssueEditIndex = -2 then
      -- we looped over all available issue edits in the timeline:
      -- use the dedicated issue edit query
      let issueEdits := (i.ieQuery.nodes.getD 0 default).userContentEdits
      if i.ieIndex < (issueEdits.nodes.length : Int) - 1 then
        issueEditStep ex fuel EditCall.valid { i with ieIndex := i.ieIndex + 1 }
      else if !issueEdits.pageInfo.hasPreviousPage then
        (some false, { i with tlIssueEditIndex := -1, ieIndex := -1 })
      else
        issueEditStep ex fuel EditCall.query
          { i with ieVars := { i.ieVars with
              issueEditBefore := some issueEdits.pageInfo.startCursor } }
    else
      let issueEdits := (i.tlQuery.issues.nodes.getD 0 default).userContentEdits
      if issueEdits.nodes.length = 0 then (some false, i)
      else if i.tlIssueEditIndex < (issueEdits.nodes.length : Int) - 1 then
        issueEditStep ex fuel EditCall.valid
          { i with tlIssueEditIndex := i.tlIssueEditIndex + 1 }
      else if !issueEdits.pageInfo.hasPreviousPage then
        (some false, { i with tlIssueEditIndex := -1 })
      else
        let i := initIssueEditQueryVariables i
        issueEditStep ex fuel EditCall.query
          { i with ieVars := { i.ieVars with
              issueEditBefore := some issueEdits.pageInfo.startCursor } }
  | Nat.succ fuel, EditCall.valid, i =>
    -- an edit whose diff is nil (older than the edit-tracking API) or empty
    -- is skipped
    let issueEdit := IssueEditValue i
    if issueEdit.diff = none ∨ issueEdit.diff = some "" then
      issueEditStep ex fuel EditCall.next i
    else (some true, i)
  | Nat.succ fuel, EditCall.query, i =>
    let i := { i with log := i.log ++ [Request.issueEdit i.ieVars] }
    match gcIssueEditQuery ex i with
    | Except.error e => (some false, { i with err := some e })
    | Except.ok q =>
      -- reverse issue edits because github (in place, before the emptiness check)
      let reversed := reverseEdits ((q.nodes.getD 0 default).userContentEdits.nodes)
      let i := { i with ieQuery := setHeadIssueEditNodes q reversed }
      if reversed.length = 0 then (some false, { i with tlIssueEditIndex := -1 })
      else
        issueEditStep ex fuel EditCall.valid
          { i with ieIndex := 0, tlIssueEditIndex := -2 }

/-- `NextIssueEdit`: advance the issue-edit axis. -/
def NextIssueEdit (ex : Executor) (fuel : Nat) (i : Iterator) : Option Bool × Iterator :=
  issueEditStep ex fuel EditCall.next i

/-- `nextValidIssueEdit`: skip the current issue edit when its diff is nil
or empty. -/
def nextValidIssueEdit (ex : Executor) (fuel : Nat) (i : Iterator) : Option Bool × Iterator :=
  issueEditStep ex fuel EditCall.valid i

/-- `queryIssueEdit`: run the dedicated issue-edit fallback query. -/
def queryIssueEdit (ex : Executor) (fuel : Nat) (i : Iterator) : Option Bool × Iterator :=
  issueEditStep ex fuel EditCall.query i

/-- The mutually recursive triple `NextCommentEdit` /
`nextValidCommentEdit` / `queryCommentEdit`, fused like `issueEditStep`. -/
def commentEditStep (ex : Executor) : Nat → EditCall → Iterator → Option Bool × Iterator
  | 0, _, i => (none, i)
  | Nat.succ fuel, EditCall.next, i =>
    if i.err.isSome then (some false, i)
    else if i.ctxErr.isSome then (some false, i)
    else if i.tlCommentEditIndex = -2 then
      -- same as NextIssueEdit: use the dedicated comment edit query
      let commentEdits := ((i.ceQuery.nodes.getD 0 default).timelineNodes.getD 0
          default).issueComment.userContentEdits
      if i.ceIndex < (commentEdits.nodes.length : Int) - 1 then
        commentEditStep ex fuel EditCall.valid { i with ceIndex := i.ceIndex + 1 }
      else if !commentEdits.pageInfo.hasPreviousPage then
        (some false, { i with tlCommentEditIndex := -1, ceIndex := -1 })
      else
        commentEditStep ex fuel EditCall.query
          { i with ceVars := { i.ceVars with
              commentEditBefore := some commentEdits.pageInfo.startCursor } }
    else
      let commentEdits := ((i.tlQuery.issues.nodes.getD 0 default).timelineItems.edges.getD
          i.tlIndex.toNat default).node.issueComment
      if commentEdits.userContentEdits.nodes.length = 0 then (some false, i)
      else if i.tlCommentEditIndex < (commentEdits.userContentEdits.nodes.length : Int) - 1 then
        commentEditStep ex fuel EditCall.valid
          { i with tlCommentEditIndex := i.tlCommentEditIndex + 1 }
      else if !commentEdits.userContentEdits.pageInfo.hasPreviousPage then
        (some false, { i with tlCommentEditIndex := -1 })
      else
        let i := initCommentEditQueryVariables i
        -- re-anchor the enclosing timeline page's continuation cursor
        let i := { i with ceVars := { i.ceVars with
          timelineAfter :=
            if i.tlIndex = 0 then some i.lastEndCursor
            else some ((i.tlQuery.issues.nodes.getD 0 default).timelineItems.edges.getD
                (i.tlIndex - 1).toNat default).cursor } }
        commentEditStep ex fuel EditCall.query
          { i with ceVars := { i.ceVars with
              commentEditBefore := some commentEdits.userContentEdits.pageInfo.startCursor } }
  | Nat.succ fuel, EditCall.valid, i =>
    -- if the comment edit diff is a nil pointer or an empty string, look
    -- for the next value
    let commentEdit := CommentEditValue i
    if commentEdit.diff = none ∨ commentEdit.diff = some "" then
      commentEditStep ex fuel EditCall.next i
    else (some true, i)
  | Nat.succ fuel, EditCall.query, i =>
    let i := { i with log := i.log ++ [Request.commentEdit i.ceVars] }
    match gcCommentEditQuery ex i with
    | Except.error e => (some false, { i with err := some e })
    | Except.ok q =>
      let i := { i with ceQuery := q }
      let commentEdits := ((q.nodes.getD 0 default).timelineNodes.getD 0
          default).issueComment.userContentEdits
      -- emptiness is checked before the in-place reversal here
      if commentEdits.nodes.length = 0 then (some false, { i with tlCommentEditIndex := -1 })
      else
        let i := { i with ceQuery := setHeadCommentEditNodes q (reverseEdits commentEdits.nodes) }
        commentEditStep ex fuel EditCall.valid
          { i with ceIndex := 0, tlCommentEditIndex := -2 }

/-- `NextCommentEdit`: advance the comment-edit axis. -/
def NextCommentEdit (ex : Executor) (fuel : Nat) (i : Iterator) : Option Bool × Iterator :=
  commentEditStep ex fuel EditCall.next i

/-- `nextValidCommentEdit`: skip the current comment edit when its diff is
nil or empty. -/
def nextValidCommentEdit (ex : Executor) (fuel : Nat) (i : Iterator) : Option Bool × Iterator :=
  commentEditStep ex fuel EditCall.valid i

/-- `queryCommentEdit`: run the dedicated comment-edit fallback query. -/
def queryCommentEdit (ex : Executor) (fuel : Nat) (i : Iterator) : Option Bool × Iterator :=
  commentEditStep ex fuel EditCall.query i

/-! ### General facts about the embedding -/

/-- The swap loop reverses a three-element page. -/
theorem reverseEdits_three (x y z : userContentEdit) :
    reverseEdits [x, y, z] = [z, y, x] := rfl

/-- The swap loop preserves the array size. -/
theorem reverseEditsAux_size (n : Nat) (edits : Array userContentEdit) (a b : Nat) :
    (reverseEditsAux n edits a b).size = edits.size := by
  induction n generalizing edits a b with
  | zero => rfl
  | succ n ih =>
    rw [reverseEditsAux]
    split
    · rw [ih, Array.size_swap!]
    · rfl

/-- `reverseEdits` preserves the length of the page. -/
theorem reverseEdits_length (edits : List userContentEdit) :
    (reverseEdits edits).length = edits.length := by
  simp [reverseEdits, reverseEditsAux_size]

/-- `reverseTimelineEditNodes` rewrites only the stored timeline query:
the pagination variables are untouched. -/
theorem reverseTimelineEditNodes_tlVars (i : Iterator) :
    (reverseTimelineEditNodes i).tlVars = i.tlVars := by
  unfold reverseTimelineEditNodes
  split <;> rfl

/-- `reverseTimelineEditNodes` leaves the cached end cursor untouched. -/
theorem reverseTimelineEditNodes_lastEndCursor (i : Iterator) :
    (reverseTimelineEditNodes i).lastEndCursor = i.lastEndCursor := by
  unfold reverseTimelineEditNodes
  split <;> rfl

/-- `reverseTimelineEditNodes` issues no request. -/
theorem reverseTimelineEditNodes_log (i : Iterator) :
    (reverseTimelineEditNodes i).log = i.log := by
  unfold reverseTimelineEditNodes
  split <;> rfl

/-- `reverseTimelineEditNodes` records no error. -/
theorem reverseTimelineEditNodes_err (i : Iterator) :
    (reverseTimelineEditNodes i).err = i.err := by
  unfold reverseTimelineEditNodes
  split <;> rfl

/-- `reverseTimelineEditNodes` keeps the number of loaded timeline items of
the current issue. -/
theorem reverseTimelineEditNodes_edges_length (i : Iterator) :
    ((reverseTimelineEditNodes i).tlQuery.issues.nodes.getD 0
        default).timelineItems.edges.length =
      ((i.tlQuery.issues.nodes.getD 0 default).timelineItems.edges.length) := by
  unfold reverseTimelineEditNodes
  split
  · rfl
  · next node rest heq => simp [heq]

/-- `queryIssue` issues exactly one request: the timeline query with the
current pagination variables. -/
theorem queryIssue_log (ex : Executor) (i : Iterator) :
    ((queryIssue ex i).2).log = i.log ++ [Request.timeline i.tlVars] := by
  unfold queryIssue
  dsimp only []
  split
  · rfl
  · split
    · rfl
    · exact reverseTimelineEditNodes_log _

/-! ### Shared concrete fixtures -/

/-- An executor whose every call fails with a transport error. -/
def failExecutor : Executor where
  timelineQ := fun _ => Except.error (GoError.transport "boom")
  issueEditQ := fun _ => Except.error (GoError.transport "boom")
  commentEditQ := fun _ => Except.error (GoError.transport "boom")

/-- A one-issue page of the primary query: identifier `i`, issue-page end
cursor `c`, issue-page has-next flag `hn`; empty timeline and edit lists. -/
def oneIssuePage (i c : String) (hn : Bool) : issueTimelineQuery :=
  { issues := { nodes := [{ id := i, timelineItems := default, userContentEdits := default }],
                pageInfo := { endCursor := c, startCursor := "", hasNextPage := hn,
                              hasPreviousPage := false } } }

/-- An issue-edit fallback page: edit list `edits`, start cursor `sc`,
has-previous flag `hp`. -/
def oneIssueEditPage (edits : List userContentEdit) (sc : String) (hp : Bool) :
    issueEditQuery :=
  { nodes := [{ userContentEdits := { nodes := edits,
                                      pageInfo := { endCursor := "", startCursor := sc,
                                                    hasNextPage := false,
                                                    hasPreviousPage := hp } } }] }

/-- A comment-edit fallback page: edit list `edits`, start cursor `sc`,
has-previous flag `hp`. -/
def oneCommentEditPage (edits : List userContentEdit) (sc : String) (hp : Bool) :
    commentEditQuery :=
  { nodes := [{ timelineNodes := [{ issueComment := { userContentEdits :=
      { nodes := edits,
        pageInfo := { endCursor := "", startCursor := sc, hasNextPage := false,
                      hasPreviousPage := hp } } } }] }] }

/-- A state in the fallback phase of the issue-edit axis whose current
fallback page (one already-consumed edit) is exhausted and reports a
previous page at start cursor `"s1"`: the next `NextIssueEdit` call must
fetch. -/
def ieFallbackState : Iterator :=
  { NewIterator with
    tlIssueEditIndex := -2, ieIndex := 0,
    ieQuery := oneIssueEditPage [{ diff := some "x" }] "s1" true }

/-- A state in the fallback phase of the comment-edit axis whose current
fallback page (one already-consumed edit) is exhausted and reports a
previous page at start cursor `"t1"`: the next `NextCommentEdit` call must
fetch. -/
def ceFallbackState : Iterator :=
  { NewIterator with
    tlCommentEditIndex := -2, ceIndex := 0,
    ceQuery := oneCommentEditPage [{ diff := some "x" }] "t1" true }

/-! ### The claims -/

/-- C1: Sticky error.  Once the iterator's error cell holds an error,
every advance call on every axis (`NextIssue`, `NextTimelineItem`,
`NextIssueEdit`, `NextCommentEdit`) returns false and leaves the whole
state — in particular the executor request log — unchanged, so no further
network activity happens for the iterator's remaining lifetime, and the
`Error` accessor returns that same non-nil error. -/
theorem c1_sticky_error (ex : Executor) (i : Iterator) (e : GoError)
    (h : i.err = some e) :
    NextIssue ex i = (false, i) ∧
    NextTimelineItem ex i = (false, i) ∧
    (∀ fuel, NextIssueEdit ex (fuel + 1) i = (some false, i)) ∧
    (∀ fuel, NextCommentEdit ex (fuel + 1) i = (some false, i)) ∧
    Error i = some e := by
  refine ⟨?_, ?_, ?_, ?_, ?_⟩ <;>
    simp [NextIssue, NextTimelineItem, NextIssueEdit, NextCommentEdit,
      issueEditStep, commentEditStep, Error, h]

/-- Witness for C1: a state carrying a concrete sticky error. -/
theorem c1_sticky_error_witness :
    ({ NewIterator with err := some (GoError.transport "boom") } : Iterator).err
        = some (GoError.transport "boom") ∧
    (NextIssue failExecutor { NewIterator with err := some (GoError.transport "boom") }
        = (false, { NewIterator with err := some (GoError.transport "boom") }) ∧
     NextTimelineItem failExecutor { NewIterator with err := some (GoError.transport "boom") }
        = (false, { NewIterator with err := some (GoError.transport "boom") }) ∧
     (∀ fuel, NextIssueEdit failExecutor (fuel + 1)
          { NewIterator with err := some (GoError.transport "boom") }
        = (some false, { NewIterator with err := some (GoError.transport "boom") })) ∧
     (∀ fuel, NextCommentEdit failExecutor (fuel + 1)
          { NewIterator with err := some (GoError.transport "boom") }
        = (some false, { NewIterator with err := some (GoError.transport "boom") })) ∧
     Error { NewIterator with err := some (GoError.transport "boom") }
        = some (GoError.transport "boom")) :=
  ⟨rfl, c1_sticky_error failExecutor _ (GoError.transport "boom") rfl⟩

/-- The executor of the C2 run: three one-issue pages `i1`, `i2`, `i3`
chained by the issue-axis cursors `c1`, `c2`; the page after `c1` is always
`i2`'s page, the page after `c2` always `i3`'s. -/
def c2Executor : Executor where
  timelineQ := fun v =>
    match v.issueAfter with
    | none => Except.ok (oneIssuePage "i1" "c1" true)
    | some "c1" => Except.ok (oneIssuePage "i2" "c2" true)
    | some "c2" => Except.ok (oneIssuePage "i3" "c3" false)
    | _ => Except.ok default
  issueEditQ := fun _ => Except.error (GoError.transport "na")
  commentEditQ := fun _ => Except.error (GoError.transport "na")

/-- The issue-page request with issue cursor `ia` and all other pagination
variables still at their initial nil value. -/
def issuePageRequest (ia : Option String) : Request :=
  Request.timeline { issueAfter := ia, timelineAfter := none, issueEditBefore := none,
                     commentEditBefore := none }

/-- C2 (code divergence): driving a fresh iterator against three one-issue
pages, the first four `NextIssue` calls all return true but surface
`i1, i2, i2, i3`: the third call repeats the request `issueAfter = "c1"` of
the second call and re-fetches the already-consumed second page.  The
cursor committed after every non-first fetch is read from the pre-fetch
copy of the page (`iterator.go` line 202), so it lags one page behind the
most recently fetched page. -/
theorem c2_stale_cursor_refetches_page :
    (NextIssue c2Executor NewIterator).1 = true ∧
    (NextIssue c2Executor (NextIssue c2Executor NewIterator).2).1 = true ∧
    (NextIssue c2Executor (NextIssue c2Executor
        (NextIssue c2Executor NewIterator).2).2).1 = true ∧
    (NextIssue c2Executor (NextIssue c2Executor (NextIssue c2Executor
        (NextIssue c2Executor NewIterator).2).2).2).1 = true ∧
    (IssueValue (NextIssue c2Executor NewIterator).2).id = "i1" ∧
    (IssueValue (NextIssue c2Executor (NextIssue c2Executor NewIterator).2).2).id = "i2" ∧
    (IssueValue (NextIssue c2Executor (NextIssue c2Executor
        (NextIssue c2Executor NewIterator).2).2).2).id = "i2" ∧
    (IssueValue (NextIssue c2Executor (NextIssue c2Executor (NextIssue c2Executor
        (NextIssue c2Executor NewIterator).2).2).2).2).id = "i3" ∧
    (NextIssue c2Executor (NextIssue c2Executor (NextIssue c2Executor
        (NextIssue c2Executor NewIterator).2).2).2).2.log =
      [issuePageRequest none, issuePageRequest (some "c1"),
       issuePageRequest (some "c1"), issuePageRequest (some "c2")] := by
  decide

/-- C7 (code divergence): with the shared cancellation signal already fired
before any call, `NextIssue` — alone among the four advance operations —
does not consult the context: the first call invokes the executor exactly
once (the call fails with the cancellation error, which is recorded as the
sticky error and also commits the issue cursor), and only then returns
false; the claim expects false with zero executor calls.  The other three
advance operations do return immediately with the state unchanged. -/
theorem c7_cancelled_nextissue_still_fetches (ex : Executor) :
    (NextIssue ex { NewIterator with ctxErr := some GoError.canceled }).1 = false ∧
    (NextIssue ex { NewIterator with ctxErr := some GoError.canceled }).2.log.length = 1 ∧
    (NextIssue ex { NewIterator with ctxErr := some GoError.canceled }).2.err
        = some GoError.canceled ∧
    (NextIssue ex { NewIterator with ctxErr := some GoError.canceled }).2.tlVars.issueAfter
        = some "" ∧
    NextTimelineItem ex { NewIterator with ctxErr := some GoError.canceled }
        = (false, { NewIterator with ctxErr := some GoError.canceled }) ∧
    (∀ fuel, NextIssueEdit ex (fuel + 1) { NewIterator with ctxErr := some GoError.canceled }
        = (some false, { NewIterator with ctxErr := some GoError.canceled })) ∧
    (∀ fuel, NextCommentEdit ex (fuel + 1) { NewIterator with ctxErr := some GoError.canceled }
        = (some false, { NewIterator with ctxErr := some GoError.canceled })) := by
  refine ⟨?_, ?_, ?_, ?_, ?_, ?_, ?_⟩ <;>
    simp [NextIssue, NextTimelineItem, NextIssueEdit, NextCommentEdit, queryIssue,
      issueEditStep, commentEditStep, gcTimelineQuery, NewIterator] <;> rfl

/-- C8: an issue whose loaded timeline item list is empty: the first
`NextTimelineItem` call returns false with the whole state unchanged — in
particular no executor request is issued and no error is recorded. -/
theorem c8_empty_timeline_exhausts_without_fetch (ex : Executor) (i : Iterator)
    (herr : i.err = none) (hctx : i.ctxErr = none)
    (hempty : (i.tlQuery.issues.nodes.getD 0 default).timelineItems.edges = []) :
    NextTimelineItem ex i = (false, i) ∧
    (NextTimelineItem ex i).2.log = i.log ∧
    Error (NextTimelineItem ex i).2 = none := by
  have hempty' : (i.tlQuery.issues.nodes[0]?.getD default).timelineItems.edges = [] := by
    simpa using hempty
  have h : NextTimelineItem ex i = (false, i) := by
    simp [NextTimelineItem, herr, hctx, hempty']
  exact ⟨h, by rw [h], by rw [h]; exact herr⟩

/-- An executor whose edit fallback queries (both axes) always return one
page holding exactly the given edit list, with no further page; the primary
query is never used. -/
def editPageExecutor (edits : List userContentEdit) : Executor where
  timelineQ := fun _ => Except.error (GoError.transport "na")
  issueEditQ := fun _ => Except.ok (oneIssueEditPage edits "" false)
  commentEditQ := fun _ => Except.ok (oneCommentEditPage edits "" false)

/-- The newest-first three-edit page `[E3, E2, E1]` whose oldest edit has
diff `d1` and newest edit diff `d3`. -/
def newestFirstPage (d1 d2 d3 : String) : List userContentEdit :=
  [{ diff := some d3 }, { diff := some d2 }, { diff := some d1 }]

/-- One `NextIssueEdit` advance against the executor serving the
newest-first page `[E3, E2, E1]`. -/
def c3Step (d1 d2 d3 : String) (s : Iterator) : Option Bool × Iterator :=
  NextIssueEdit (editPageExecutor (newestFirstPage d1 d2 d3)) 10 s

/-- The state after the n-th advance of the C3 run, starting from the
exhausted fallback page of `ieFallbackState`. -/
def c3State (d1 d2 d3 : String) : Nat → Iterator
  | 0 => ieFallbackState
  | n + 1 => (c3Step d1 d2 d3 (c3State d1 d2 d3 n)).2

/-- C3: a freshly fetched edit page, returned newest-first by the remote as
`[E3, E2, E1]` with all diffs present, is reversed before any edit in it is
surfaced: successive `NextIssueEdit`/`IssueEditValue` calls yield
`E1, E2, E3` (oldest first) and then exhaustion; the whole page is fetched
by one request issued on the first of those calls — before any edit was
surfaced. -/
theorem c3_fresh_edit_page_surfaced_oldest_first (d1 d2 d3 : String)
    (h1 : d1 ≠ "") (h2 : d2 ≠ "") (h3 : d3 ≠ "") :
    (c3Step d1 d2 d3 (c3State d1 d2 d3 0)).1 = some true ∧
    IssueEditValue (c3State d1 d2 d3 1) = { diff := some d1 } ∧
    (c3Step d1 d2 d3 (c3State d1 d2 d3 1)).1 = some true ∧
    IssueEditValue (c3State d1 d2 d3 2) = { diff := some d2 } ∧
    (c3Step d1 d2 d3 (c3State d1 d2 d3 2)).1 = some true ∧
    IssueEditValue (c3State d1 d2 d3 3) = { diff := some d3 } ∧
    (c3Step d1 d2 d3 (c3State d1 d2 d3 3)).1 = some false ∧
    (c3State d1 d2 d3 1).log
      = [Request.issueEdit { issueAfter := none, issueEditBefore := some "s1" }] := by
  simp [c3Step, c3State, newestFirstPage, NextIssueEdit, issueEditStep, ieFallbackState,
    editPageExecutor, oneIssueEditPage, NewIterator, gcIssueEditQuery, IssueEditValue,
    reverseEdits_three, setHeadIssueEditNodes, h1, h2, h3]

/-- Witness for C3: the page `["z", "y", "x"]` (newest first) is surfaced
as `x, y, z`. -/
theorem c3_fresh_edit_page_surfaced_oldest_first_witness :
    (c3Step "x" "y" "z" (c3State "x" "y" "z" 0)).1 = some true ∧
    IssueEditValue (c3State "x" "y" "z" 1) = { diff := some "x" } ∧
    (c3Step "x" "y" "z" (c3State "x" "y" "z" 1)).1 = some true ∧
    IssueEditValue (c3State "x" "y" "z" 2) = { diff := some "y" } ∧
    (c3Step "x" "y" "z" (c3State "x" "y" "z" 2)).1 = some true ∧
    IssueEditValue (c3State "x" "y" "z" 3) = { diff := some "z" } ∧
    (c3Step "x" "y" "z" (c3State "x" "y" "z" 3)).1 = some false ∧
    (c3State "x" "y" "z" 1).log
      = [Request.issueEdit { issueAfter := none, issueEditBefore := some "s1" }] :=
  c3_fresh_edit_page_surfaced_oldest_first "x" "y" "z"
    (by decide) (by decide) (by decide)

/-- The newest-first page `[E3(diff=None), E2, E1]`: the newest edit has no
diff, the older two have diffs `d2` and `d1`. -/
def nilHeadPage (d1 d2 : String) : List userContentEdit :=
  [{ diff := none }, { diff := some d2 }, { diff := some d1 }]

/-- One `NextIssueEdit` advance against the executor serving the page
`[E3(diff=None), E2, E1]`. -/
def c4IeStep (d1 d2 : String) (s : Iterator) : Option Bool × Iterator :=
  NextIssueEdit (editPageExecutor (nilHeadPage d1 d2)) 10 s

/-- The issue-edit axis state after the n-th advance of the C4 run. -/
def c4IeState (d1 d2 : String) : Nat → Iterator
  | 0 => ieFallbackState
  | n + 1 => (c4IeStep d1 d2 (c4IeState d1 d2 n)).2

/-- One `NextCommentEdit` advance against the executor serving the page
`[E3(diff=None), E2, E1]`. -/
def c4CeStep (d1 d2 : String) (s : Iterator) : Option Bool × Iterator :=
  NextCommentEdit (editPageExecutor (nilHeadPage d1 d2)) 10 s

/-- The comment-edit axis state after the n-th advance of the C4 run. -/
def c4CeState (d1 d2 : String) : Nat → Iterator
  | 0 => ceFallbackState
  | n + 1 => (c4CeStep d1 d2 (c4CeState d1 d2 n)).2

/-- Counterexample to C4 as stated: for the fetched page
`[E3(diff=None), E2(diff="d2"), E1(diff="d1")]` the engine surfaces
`E1, E2` — oldest first — and not `E2, E1`: the first surfaced value is
`E1`, so "surfaces exactly E2,E1 in that order" is false. -/
theorem c4_counterexample :
    (c4IeStep "d1" "d2" (c4IeState "d1" "d2" 0)).1 = some true ∧
    IssueEditValue (c4IeState "d1" "d2" 1) = { diff := some "d1" } ∧
    (c4IeStep "d1" "d2" (c4IeState "d1" "d2" 1)).1 = some true ∧
    IssueEditValue (c4IeState "d1" "d2" 2) = { diff := some "d2" } ∧
    (c4IeStep "d1" "d2" (c4IeState "d1" "d2" 2)).1 = some false ∧
    ¬ (IssueEditValue (c4IeState "d1" "d2" 1) = { diff := some "d2" } ∧
       IssueEditValue (c4IeState "d1" "d2" 2) = { diff := some "d1" }) := by
  decide

/-- C4 (amended): an edit whose diff is absent or empty is never surfaced
by any Edit Sub-iterator advance: given a page `[E3(diff=None), E2, E1]`,
both the issue-edit and the comment-edit axes surface exactly `E1, E2` in
that (oldest-first) order, then report exhaustion — `E3` never appears as a
current edit value. -/
theorem c4_amended_nil_diff_edit_never_surfaced (d1 d2 : String)
    (h1 : d1 ≠ "") (h2 : d2 ≠ "") :
    ((c4IeStep d1 d2 (c4IeState d1 d2 0)).1 = some true ∧
     IssueEditValue (c4IeState d1 d2 1) = { diff := some d1 } ∧
     (c4IeStep d1 d2 (c4IeState d1 d2 1)).1 = some true ∧
     IssueEditValue (c4IeState d1 d2 2) = { diff := some d2 } ∧
     (c4IeStep d1 d2 (c4IeState d1 d2 2)).1 = some false) ∧
    ((c4CeStep d1 d2 (c4CeState d1 d2 0)).1 = some true ∧
     CommentEditValue (c4CeState d1 d2 1) = { diff := some d1 } ∧
     (c4CeStep d1 d2 (c4CeState d1 d2 1)).1 = some true ∧
     CommentEditValue (c4CeState d1 d2 2) = { diff := some d2 } ∧
     (c4CeStep d1 d2 (c4CeState d1 d2 2)).1 = some false) := by
  constructor
  · simp [c4IeStep, c4IeState, nilHeadPage, NextIssueEdit, issueEditStep, ieFallbackState,
      editPageExecutor, oneIssueEditPage, NewIterator, gcIssueEditQuery, IssueEditValue,
      reverseEdits_three, setHeadIssueEditNodes, h1, h2]
  · simp [c4CeStep, c4CeState, nilHeadPage, NextCommentEdit, commentEditStep, ceFallbackState,
      editPageExecutor, oneCommentEditPage, NewIterator, gcCommentEditQuery, CommentEditValue,
      reverseEdits_three, setHeadCommentEditNodes, h1, h2]

/-- Witness for the amended C4 at the page `[None, "d2", "d1"]`. -/
theorem c4_amended_nil_diff_edit_never_surfaced_witness :
    ((c4IeStep "d1" "d2" (c4IeState "d1" "d2" 0)).1 = some true ∧
     IssueEditValue (c4IeState "d1" "d2" 1) = { diff := some "d1" } ∧
     (c4IeStep "d1" "d2" (c4IeState "d1" "d2" 1)).1 = some true ∧
     IssueEditValue (c4IeState "d1" "d2" 2) = { diff := some "d2" } ∧
     (c4IeStep "d1" "d2" (c4IeState "d1" "d2" 2)).1 = some false) ∧
    ((c4CeStep "d1" "d2" (c4CeState "d1" "d2" 0)).1 = some true ∧
     CommentEditValue (c4CeState "d1" "d2" 1) = { diff := some "d1" } ∧
     (c4CeStep "d1" "d2" (c4CeState "d1" "d2" 1)).1 = some true ∧
     CommentEditValue (c4CeState "d1" "d2" 2) = { diff := some "d2" } ∧
     (c4CeStep "d1" "d2" (c4CeState "d1" "d2" 2)).1 = some false) :=
  c4_amended_nil_diff_edit_never_surfaced "d1" "d2" (by decide) (by decide)

/-- A state holding one issue whose loaded timeline page has exactly one
(consumed) item and a further page behind end cursor `"tl2"`: the next
`NextTimelineItem` call must fetch. -/
def oneEdgeTimelineIssue : issueTimeline :=
  { id := "i1",
    timelineItems := { edges := [default],
                       pageInfo := { endCursor := "tl2", startCursor := "",
                                     hasNextPage := true, hasPreviousPage := false } },
    userContentEdits := default }

/-- A state holding `oneEdgeTimelineIssue` with its single timeline item
already consumed. -/
def tlContinuationState : Iterator :=
  { NewIterator with
    tlQuery := { issues := { nodes := [oneEdgeTimelineIssue], pageInfo := default } },
    tlIndex := 0 }

/-- Counterexample to C5 as stated: from `tlContinuationState` (where
`timelineAfter` still has its initial nil value) a `NextTimelineItem` call
whose fetch fails leaves `timelineAfter = "tl2"` — the cursor of the failed
fetch — so cursor state is **not** unchanged from its last known-good value
when a fetch fails. -/
theorem c5_counterexample :
    tlContinuationState.tlVars.timelineAfter = none ∧
    (NextTimelineItem failExecutor tlContinuationState).1 = false ∧
    (NextTimelineItem failExecutor tlContinuationState).2.err
        = some (GoError.transport "boom") ∧
    (NextTimelineItem failExecutor tlContinuationState).2.tlVars.timelineAfter
        = some "tl2" ∧
    (NextTimelineItem failExecutor tlContinuationState).2.tlVars.timelineAfter
        ≠ tlContinuationState.tlVars.timelineAfter := by
  decide

/-- C5 (amended): a pagination cursor is committed immediately **before**
the corresponding fetch is issued, not after it succeeds: whenever
`NextTimelineItem` reaches its continuation fetch, the post-call
`timelineAfter` (and the cached `lastEndCursor`) equal the end cursor of
the pre-fetch page for **every** executor outcome — in particular a failed
fetch leaves the cursor pointing at the attempted fetch, not at the last
known-good value.  The sticky error prevents any later use of the advanced
cursor. -/
theorem c5_amended_cursor_committed_at_fetch (ex : Executor) (i : Iterator)
    (herr : i.err = none) (hctx : i.ctxErr = none)
    (hne : (i.tlQuery.issues.nodes.getD 0 default).timelineItems.edges.length ≠ 0)
    (hend : ¬ i.tlIndex <
      ((i.tlQuery.issues.nodes.getD 0 default).timelineItems.edges.length : Int) - 1)
    (hnext : (i.tlQuery.issues.nodes.getD 0 default).timelineItems.pageInfo.hasNextPage
        = true) :
    ((NextTimelineItem ex i).2).tlVars.timelineAfter =
      some (i.tlQuery.issues.nodes.getD 0 default).timelineItems.pageInfo.endCursor ∧
    ((NextTimelineItem ex i).2).lastEndCursor =
      (i.tlQuery.issues.nodes.getD 0 default).timelineItems.pageInfo.endCursor := by
  rw [NextTimelineItem]
  simp only [herr, hctx, hne, hend, hnext, Option.isSome_none, Bool.false_eq_true,
    if_false, ite_false, Bool.not_true, ne_eq]
  split
  · simp
  · split
    · simp
    · simp [reverseTimelineEditNodes_tlVars, reverseTimelineEditNodes_lastEndCursor]

/-- Witness for the amended C5: the failing fetch from
`tlContinuationState` commits `timelineAfter = "tl2"`. -/
theorem c5_amended_cursor_committed_at_fetch_witness :
    ((NextTimelineItem failExecutor tlContinuationState).2).tlVars.timelineAfter =
      some (tlContinuationState.tlQuery.issues.nodes.getD 0
        default).timelineItems.pageInfo.endCursor ∧
    ((NextTimelineItem failExecutor tlContinuationState).2).lastEndCursor =
      (tlContinuationState.tlQuery.issues.nodes.getD 0
        default).timelineItems.pageInfo.endCursor :=
  c5_amended_cursor_committed_at_fetch failExecutor tlContinuationState
    rfl rfl (by decide) (by decide) (by decide)

/-- The executor of the C6 run: asked for the issue edits before cursor
`"s1"` it returns a full page holding a single nil-diff edit with a further
page at `"s0"`; asked before `"s0"` it returns a page with one valid
edit. -/
def c6Executor : Executor where
  timelineQ := fun _ => Except.error (GoError.transport "na")
  issueEditQ := fun v =>
    match v.issueEditBefore with
    | some "s1" => Except.ok (oneIssueEditPage [{ diff := none }] "s0" true)
    | some "s0" => Except.ok (oneIssueEditPage [{ diff := some "good" }] "" false)
    | _ => Except.error (GoError.transport "bad cursor")
  commentEditQ := fun _ => Except.error (GoError.transport "na")

/-- Counterexample to C6 as stated: a single `NextIssueEdit` call can
trigger two remote fetches — after fetching a page consisting entirely of
nil-diff edits, the skip recursion immediately fetches the next page within
the same advance call. -/
theorem c6_counterexample :
    ieFallbackState.log.length = 0 ∧
    (NextIssueEdit c6Executor 10 ieFallbackState).1 = some true ∧
    (NextIssueEdit c6Executor 10 ieFallbackState).2.log.length = 2 ∧
    ¬ ((NextIssueEdit c6Executor 10 ieFallbackState).2.log.length
        ≤ ieFallbackState.log.length + 1) := by
  decide

/-- C6 (amended): a single `NextIssue` or `NextTimelineItem` call triggers
at most one remote fetch, for every iterator state and executor behaviour.
(`NextIssueEdit`/`NextCommentEdit` may fetch more than once in a single
call when a fetched page consists entirely of skippable edits.) -/
theorem c6_amended_at_most_one_fetch (ex : Executor) (i : Iterator) :
    (NextIssue ex i).2.log.length ≤ i.log.length + 1 ∧
    (NextTimelineItem ex i).2.log.length ≤ i.log.length + 1 := by
  constructor
  · by_cases h1 : i.err.isSome
    · simp [NextIssue, h1]
    · by_cases h2 : i.tlVars.issueAfter = none
      · rcases hq : queryIssue ex i with ⟨b, j⟩
        have hl := queryIssue_log ex i
        rw [hq] at hl
        simp at hl
        simp [NextIssue, h1, h2, hq, hl]
      · by_cases h3 : i.tlQuery.issues.pageInfo.hasNextPage
        · rw [NextIssue]
          dsimp only []
          simp only [h1, if_false, h2, ite_false, h3, Bool.not_true, Bool.false_eq_true]
          rcases hq : queryIssue ex { i with
              tlVars := { i.tlVars with timelineAfter := none }, tlIndex := -1,
              lastEndCursor := (i.tlQuery.issues.nodes.getD 0
                default).timelineItems.pageInfo.endCursor } with ⟨b, j⟩
          have hl := queryIssue_log ex { i with
              tlVars := { i.tlVars with timelineAfter := none }, tlIndex := -1,
              lastEndCursor := (i.tlQuery.issues.nodes.getD 0
                default).timelineItems.pageInfo.endCursor }
          rw [hq] at hl
          simp at hl
          simp [hq, hl]
        · simp [NextIssue, h1, h2, h3]
  · rw [NextTimelineItem]
    dsimp only []
    split
    · simp
    · split
      · simp
      · split
        · simp
        · split
          · simp
          · split
            · simp
            · split
              · simp
              · split
                · simp
                · simp [reverseTimelineEditNodes_log]

/-- C9: index safety of the timeline axis.  From any state whose timeline
index is at least `-1` (as established at construction and on every issue
transition), a `NextTimelineItem` call that returns true leaves the index
within the bounds of the page loaded after the call — in particular a
continuation fetch that succeeds with zero timeline edges yields false
rather than index 0, so `TimelineItemValue` never indexes an empty or
too-short list after a successful advance. -/
theorem c9_index_in_bounds_after_advance (ex : Executor) (i : Iterator)
    (h : -1 ≤ i.tlIndex) :
    (NextTimelineItem ex i).1 = true →
      0 ≤ (NextTimelineItem ex i).2.tlIndex ∧
      (NextTimelineItem ex i).2.tlIndex <
        (((NextTimelineItem ex i).2.tlQuery.issues.nodes.getD 0
            default).timelineItems.edges.length : Int) := by
  rw [NextTimelineItem]
  dsimp only []
  split
  · simp
  · split
    · simp
    · split
      · simp
      · split
        · next hlt =>
          intro _
          dsimp only
          exact ⟨by omega, by omega⟩
        · split
          · simp
          · split
            · simp
            · split
              · simp
              · next hne =>
                intro _
                dsimp only
                refine ⟨by omega, ?_⟩
                rw [reverseTimelineEditNodes_edges_length]
                dsimp only
                omega

/-- An issue with two loaded timeline items and no further page. -/
def twoEdgeTimelineIssue : issueTimeline :=
  { id := "i1",
    timelineItems := { edges := [default, default], pageInfo := default },
    userContentEdits := default }

/-- A loaded issue with two timeline items of which the first has been
consumed: the next advance steps to the second. -/
def twoEdgeState : Iterator :=
  { NewIterator with
    tlQuery := { issues := { nodes := [twoEdgeTimelineIssue], pageInfo := default } },
    tlIndex := 0 }

/-- Witness for C9: the in-page advance from `twoEdgeState` succeeds and
lands within bounds. -/
theorem c9_index_in_bounds_after_advance_witness :
    0 ≤ (NextTimelineItem failExecutor twoEdgeState).2.tlIndex ∧
    (NextTimelineItem failExecutor twoEdgeState).2.tlIndex <
      (((NextTimelineItem failExecutor twoEdgeState).2.tlQuery.issues.nodes.getD 0
          default).timelineItems.edges.length : Int) :=
  c9_index_in_bounds_after_advance failExecutor twoEdgeState (by decide) (by decide)

/-- Witness for C8: a loaded issue with zero timeline items. -/
theorem c8_empty_timeline_exhausts_without_fetch_witness :
    NextTimelineItem failExecutor
        { NewIterator with tlQuery := oneIssuePage "i1" "c1" false }
      = (false, { NewIterator with tlQuery := oneIssuePage "i1" "c1" false }) ∧
    (NextTimelineItem failExecutor
        { NewIterator with tlQuery := oneIssuePage "i1" "c1" false }).2.log
      = ({ NewIterator with tlQuery := oneIssuePage "i1" "c1" false } : Iterator).log ∧
    Error (NextTimelineItem failExecutor
        { NewIterator with tlQuery := oneIssuePage "i1" "c1" false }).2 = none :=
  c8_empty_timeline_exhausts_without_fetch failExecutor _ rfl rfl rfl


section Termination

variable (ex : Executor) (rnk : Option String → Nat) (N L : Nat)

/-- The fallback-phase edit connection currently loaded on the issue-edit
axis. -/
def ieFallbackConn (i : Iterator) : userContentEditConnection :=
  (i.ieQuery.nodes.getD 0 default).userContentEdits

/-- The embedded edit connection of the currently loaded issue. -/
def ieEmbeddedConn (i : Iterator) : userContentEditConnection :=
  (i.tlQuery.issues.nodes.getD 0 default).userContentEdits




theorem issueEdit_query_total
    (hL : ∀ v p, ex.issueEditQ v = Except.ok p →
      (p.nodes.getD 0 default).userContentEdits.nodes.length ≤ L)
    (hrank : ∀ v p, ex.issueEditQ v = Except.ok p →
      (p.nodes.getD 0 default).userContentEdits.pageInfo.hasPreviousPage = true →
      rnk (some (p.nodes.getD 0 default).userContentEdits.pageInfo.startCursor)
        < rnk v.issueEditBefore)
    (R : Nat) :
    ∀ (i : Iterator) (fuel : Nat),
      rnk i.ieVars.issueEditBefore ≤ R →
      (R + 1) * (2 * L + 4) + 1 ≤ fuel →
      (issueEditStep ex fuel EditCall.query i).1.isSome := by
  induction R using Nat.strong_induction_on with
  | _ R IH =>
  have hQ : ∀ (i : Iterator) (fuel : Nat), rnk i.ieVars.issueEditBefore < R →
      R * (2 * L + 4) + 1 ≤ fuel →
      (issueEditStep ex fuel EditCall.query i).1.isSome := by
    intro i fuel hlt hfuel
    refine IH (rnk i.ieVars.issueEditBefore) hlt i fuel (le_refl _) ?_
    have h2 := Nat.mul_le_mul_right (2 * L + 4) (hlt : rnk i.ieVars.issueEditBefore + 1 ≤ R)
    exact le_trans (Nat.add_le_add_right h2 1) hfuel
  have W : ∀ (k : Nat) (i : Iterator) (fuel : Nat),
      i.tlIssueEditIndex = -2 →
      ((ieFallbackConn i).pageInfo.hasPreviousPage = true →
        rnk (some (ieFallbackConn i).pageInfo.startCursor) < R) →
      ((ieFallbackConn i).nodes.length : Int) - i.ieIndex ≤ (k : Int) →
      2 * k + R * (2 * L + 4) + 2 ≤ fuel →
      (issueEditStep ex fuel EditCall.next i).1.isSome := by
    intro k
    induction k using Nat.strong_induction_on with
    | _ k IHk =>
    intro i fuel hmode hprev hk hfuel
    obtain ⟨f, rfl⟩ : ∃ f, fuel = f + 1 := ⟨fuel - 1, by omega⟩
    rw [issueEditStep]
    dsimp only
    split
    · simp
    · split
      · simp
      · split
        · next hlt =>
          obtain ⟨f', rfl⟩ : ∃ g, f = g + 1 := ⟨f - 1, by omega⟩
          rw [issueEditStep]
          split
          · -- invalid edit, recurse with one fewer page slot
            have hk1 : 1 ≤ k := by
              simp only [ieFallbackConn] at hk
              omega
            refine IHk (k - 1) (by omega) _ f' hmode ?_ ?_ (by omega)
            · simpa [ieFallbackConn] using hprev
            · simp only [ieFallbackConn] at hk ⊢
              omega
          · simp
        · split
          · simp
          · next hnp =>
            refine hQ _ f ?_ (by omega)
            dsimp only
            apply hprev
            simp only [ieFallbackConn]
            rcases h : (i.ieQuery.nodes.getD 0 default).userContentEdits.pageInfo.hasPreviousPage
            · rw [h] at hnp
              simp at hnp
            · rfl
  intro i fuel hle hfuel
  have hexp : (R + 1) * (2 * L + 4) = R * (2 * L + 4) + (2 * L + 4) := by ring
  obtain ⟨f, rfl⟩ : ∃ f, fuel = f + 1 := ⟨fuel - 1, by omega⟩
  rw [issueEditStep]
  dsimp only
  split
  · simp
  · next q hok =>
    have hok' : ex.issueEditQ i.ieVars = Except.ok q := by
      rcases hc : i.ctxErr with _ | e
      · simpa [gcIssueEditQuery, hc] using hok
      · simp [gcIssueEditQuery, hc] at hok
    split
    · simp
    · next hne =>
      rcases hq : q.nodes with _ | ⟨n, rest⟩
      · rw [hq] at hne
        exact absurd rfl hne
      · obtain ⟨f', rfl⟩ : ∃ g, f = g + 1 := ⟨f - 1, by omega⟩
        rw [issueEditStep]
        split
        · -- first edit of the fresh page is skipped: enter the walk
          refine W L _ f' rfl ?_ ?_ (by omega)
          · -- the next backward fetch strictly lowers the rank
            intro hpp
            simp only [ieFallbackConn, setHeadIssueEditNodes, hq, List.getD_cons_zero]
              at hpp ⊢
            try dsimp only at hpp ⊢
            have hr := hrank _ _ hok'
            simp only [hq, List.getD_cons_zero] at hr
            try dsimp only at hr
            exact lt_of_lt_of_le (hr hpp) hle
          · -- the fresh page fits in L
            simp only [ieFallbackConn, setHeadIssueEditNodes, hq, List.getD_cons_zero]
            try dsimp only
            have hlen := hL _ _ hok'
            simp only [hq, List.getD_cons_zero] at hlen
            try dsimp only at hlen
            have hrl := reverseEdits_length ((q.nodes.getD 0 default).userContentEdits.nodes)
            simp only [hq, List.getD_cons_zero] at hrl
            try dsimp only at hrl
            omega
        · simp

theorem issueEdit_fallback_walk
    (hN : ∀ c, rnk c ≤ N)
    (hL : ∀ v p, ex.issueEditQ v = Except.ok p →
      (p.nodes.getD 0 default).userContentEdits.nodes.length ≤ L)
    (hrank : ∀ v p, ex.issueEditQ v = Except.ok p →
      (p.nodes.getD 0 default).userContentEdits.pageInfo.hasPreviousPage = true →
      rnk (some (p.nodes.getD 0 default).userContentEdits.pageInfo.startCursor)
        < rnk v.issueEditBefore) :
    ∀ (k : Nat) (i : Iterator) (fuel : Nat),
      i.tlIssueEditIndex = -2 →
      ((ieFallbackConn i).nodes.length : Int) - i.ieIndex ≤ (k : Int) →
      2 * k + (N + 1) * (2 * L + 4) + 2 ≤ fuel →
      (issueEditStep ex fuel EditCall.next i).1.isSome := by
  have hA := issueEdit_query_total ex rnk L hL hrank N
  intro k
  induction k using Nat.strong_induction_on with
  | _ k IHk =>
  intro i fuel hmode hk hfuel
  obtain ⟨f, rfl⟩ : ∃ f, fuel = f + 1 := ⟨fuel - 1, by omega⟩
  rw [issueEditStep]
  dsimp only
  split
  · simp
  · split
    · simp
    · split
      · next hlt =>
        obtain ⟨f', rfl⟩ : ∃ g, f = g + 1 := ⟨f - 1, by omega⟩
        rw [issueEditStep]
        split
        · have hk1 : 1 ≤ k := by
            simp only [ieFallbackConn] at hk
            omega
          refine IHk (k - 1) (by omega) _ f' hmode ?_ (by omega)
          simp only [ieFallbackConn] at hk ⊢
          omega
        · simp
      · split
        · simp
        · refine hA _ f (hN _) (by omega)

theorem issueEdit_embedded_walk
    (hN : ∀ c, rnk c ≤ N)
    (hL : ∀ v p, ex.issueEditQ v = Except.ok p →
      (p.nodes.getD 0 default).userContentEdits.nodes.length ≤ L)
    (hrank : ∀ v p, ex.issueEditQ v = Except.ok p →
      (p.nodes.getD 0 default).userContentEdits.pageInfo.hasPreviousPage = true →
      rnk (some (p.nodes.getD 0 default).userContentEdits.pageInfo.startCursor)
        < rnk v.issueEditBefore) :
    ∀ (k : Nat) (i : Iterator) (fuel : Nat),
      i.tlIssueEditIndex ≠ -2 → -2 ≤ i.tlIssueEditIndex →
      ((ieEmbeddedConn i).nodes.length : Int) - i.tlIssueEditIndex ≤ (k : Int) →
      2 * k + (N + 1) * (2 * L + 4) + 2 ≤ fuel →
      (issueEditStep ex fuel EditCall.next i).1.isSome := by
  have hA := issueEdit_query_total ex rnk L hL hrank N
  intro k
  induction k using Nat.strong_induction_on with
  | _ k IHk =>
  intro i fuel hmode htl hk hfuel
  obtain ⟨f, rfl⟩ : ∃ f, fuel = f + 1 := ⟨fuel - 1, by omega⟩
  rw [issueEditStep]
  dsimp only
  split
  · simp
  · split
    · simp
    · split
      · simp
      · split
        · next hlt =>
          simp only [ieEmbeddedConn] at hk
          obtain ⟨f', rfl⟩ : ∃ g, f = g + 1 := ⟨f - 1, by omega⟩
          rw [issueEditStep]
          split
          · have hk1 : 1 ≤ k := by omega
            refine IHk (k - 1) (by omega) _ f' ?_ ?_ ?_ (by omega)
            · dsimp only
              omega
            · dsimp only
              omega
            · simp only [ieEmbeddedConn]
              try dsimp only
              omega
          · simp
        · split
          · simp
          · refine hA _ f (hN _) (by omega)

theorem NextIssueEdit_total
    (hN : ∀ c, rnk c ≤ N)
    (hL : ∀ v p, ex.issueEditQ v = Except.ok p →
      (p.nodes.getD 0 default).userContentEdits.nodes.length ≤ L)
    (hrank : ∀ v p, ex.issueEditQ v = Except.ok p →
      (p.nodes.getD 0 default).userContentEdits.pageInfo.hasPreviousPage = true →
      rnk (some (p.nodes.getD 0 default).userContentEdits.pageInfo.startCursor)
        < rnk v.issueEditBefore)
    (i : Iterator) (fuel : Nat)
    (htl : -2 ≤ i.tlIssueEditIndex)
    (hfuel : 2 * (((ieEmbeddedConn i).nodes.length : Int) - i.tlIssueEditIndex).toNat +
             2 * (((ieFallbackConn i).nodes.length : Int) - i.ieIndex).toNat +
             (N + 1) * (2 * L + 4) + 2 ≤ fuel) :
    (NextIssueEdit ex fuel i).1.isSome := by
  rw [NextIssueEdit]
  by_cases hmode : i.tlIssueEditIndex = -2
  · refine issueEdit_fallback_walk ex rnk N L hN hL hrank
      (((ieFallbackConn i).nodes.length : Int) - i.ieIndex).toNat i fuel hmode ?_ (by omega)
    omega
  · refine issueEdit_embedded_walk ex rnk N L hN hL hrank
      (((ieEmbeddedConn i).nodes.length : Int) - i.tlIssueEditIndex).toNat i fuel hmode htl
      ?_ (by omega)
    omega

/-- The fallback-phase edit connection currently loaded on the comment-edit
axis. -/
def ceFallbackConn (i : Iterator) : userContentEditConnection :=
  ((i.ceQuery.nodes.getD 0 default).timelineNodes.getD 0 default).issueComment.userContentEdits

/-- The embedded edit connection of the current timeline item. -/
def ceEmbeddedConn (i : Iterator) : userContentEditConnection :=
  ((i.tlQuery.issues.nodes.getD 0 default).timelineItems.edges.getD i.tlIndex.toNat
    default).node.issueComment.userContentEdits

/-- The edit connection carried by a comment-edit fallback page. -/
def commentPageConn (p : commentEditQuery) : userContentEditConnection :=
  ((p.nodes.getD 0 default).timelineNodes.getD 0 default).issueComment.userContentEdits

theorem commentEdit_query_total
    (hL : ∀ v p, ex.commentEditQ v = Except.ok p → (commentPageConn p).nodes.length ≤ L)
    (hrank : ∀ v p, ex.commentEditQ v = Except.ok p →
      (commentPageConn p).pageInfo.hasPreviousPage = true →
      rnk (some (commentPageConn p).pageInfo.startCursor) < rnk v.commentEditBefore)
    (R : Nat) :
    ∀ (i : Iterator) (fuel : Nat),
      rnk i.ceVars.commentEditBefore ≤ R →
      (R + 1) * (2 * L + 4) + 1 ≤ fuel →
      (commentEditStep ex fuel EditCall.query i).1.isSome := by
  induction R using Nat.strong_induction_on with
  | _ R IH =>
  have hQ : ∀ (i : Iterator) (fuel : Nat), rnk i.ceVars.commentEditBefore < R →
      R * (2 * L + 4) + 1 ≤ fuel →
      (commentEditStep ex fuel EditCall.query i).1.isSome := by
    intro i fuel hlt hfuel
    refine IH (rnk i.ceVars.commentEditBefore) hlt i fuel (le_refl _) ?_
    have h2 := Nat.mul_le_mul_right (2 * L + 4) (hlt : rnk i.ceVars.commentEditBefore + 1 ≤ R)
    exact le_trans (Nat.add_le_add_right h2 1) hfuel
  have W : ∀ (k : Nat) (i : Iterator) (fuel : Nat),
      i.tlCommentEditIndex = -2 →
      ((ceFallbackConn i).pageInfo.hasPreviousPage = true →
        rnk (some (ceFallbackConn i).pageInfo.startCursor) < R) →
      ((ceFallbackConn i).nodes.length : Int) - i.ceIndex ≤ (k : Int) →
      2 * k + R * (2 * L + 4) + 2 ≤ fuel →
      (commentEditStep ex fuel EditCall.next i).1.isSome := by
    intro k
    induction k using Nat.strong_induction_on with
    | _ k IHk =>
    intro i fuel hmode hprev hk hfuel
    obtain ⟨f, rfl⟩ : ∃ f, fuel = f + 1 := ⟨fuel - 1, by omega⟩
    rw [commentEditStep]
    dsimp only
    split
    · simp
    · split
      · simp
      · split
        · next hlt =>
          obtain ⟨f', rfl⟩ : ∃ g, f = g + 1 := ⟨f - 1, by omega⟩
          rw [commentEditStep]
          split
          · have hk1 : 1 ≤ k := by
              simp only [ceFallbackConn] at hk
              omega
            refine IHk (k - 1) (by omega) _ f' hmode ?_ ?_ (by omega)
            · simpa [ceFallbackConn] using hprev
            · simp only [ceFallbackConn] at hk ⊢
              omega
          · simp
        · split
          · simp
          · next hnp =>
            refine hQ _ f ?_ (by omega)
            dsimp only
            apply hprev
            simp only [ceFallbackConn]
            rcases h : ((i.ceQuery.nodes.getD 0 default).timelineNodes.getD 0
                default).issueComment.userContentEdits.pageInfo.hasPreviousPage
            · rw [h] at hnp
              simp at hnp
            · rfl
  intro i fuel hle hfuel
  have hexp : (R + 1) * (2 * L + 4) = R * (2 * L + 4) + (2 * L + 4) := by ring
  obtain ⟨f, rfl⟩ : ∃ f, fuel = f + 1 := ⟨fuel - 1, by omega⟩
  rw [commentEditStep]
  dsimp only
  split
  · simp
  · next q hok =>
    have hok' : ex.commentEditQ i.ceVars = Except.ok q := by
      rcases hc : i.ctxErr with _ | e
      · simpa [gcCommentEditQuery, hc] using hok
      · simp [gcCommentEditQuery, hc] at hok
    split
    · simp
    · next hne =>
      rcases hq : q.nodes with _ | ⟨n, rest⟩
      · rw [hq] at hne
        exact absurd rfl hne
      · rw [hq] at hne
        simp only [List.getD_cons_zero] at hne
        rcases ht : n.timelineNodes with _ | ⟨t, trest⟩
        · rw [ht] at hne
          exact absurd rfl hne
        · obtain ⟨f', rfl⟩ : ∃ g, f = g + 1 := ⟨f - 1, by omega⟩
          rw [commentEditStep]
          split
          · refine W L _ f' rfl ?_ ?_ (by omega)
            · intro hpp
              simp only [ceFallbackConn, setHeadCommentEditNodes, hq, ht,
                List.getD_cons_zero] at hpp ⊢
              try dsimp only at hpp ⊢
              have hr := hrank _ _ hok'
              simp only [commentPageConn, hq, ht, List.getD_cons_zero] at hr
              try dsimp only at hr
              exact lt_of_lt_of_le (hr hpp) hle
            · simp only [ceFallbackConn, setHeadCommentEditNodes, hq, ht,
                List.getD_cons_zero]
              try dsimp only
              have hlen := hL _ _ hok'
              simp only [commentPageConn, hq, ht, List.getD_cons_zero] at hlen
              try dsimp only at hlen
              have hrl := reverseEdits_length (((q.nodes.getD 0 default).timelineNodes.getD 0
                default).issueComment.userContentEdits.nodes)
              simp only [hq, ht, List.getD_cons_zero] at hrl
              try dsimp only at hrl
              omega
          · simp

theorem commentEdit_fallback_walk
    (hN : ∀ c, rnk c ≤ N)
    (hL : ∀ v p, ex.commentEditQ v = Except.ok p → (commentPageConn p).nodes.length ≤ L)
    (hrank : ∀ v p, ex.commentEditQ v = Except.ok p →
      (commentPageConn p).pageInfo.hasPreviousPage = true →
      rnk (some (commentPageConn p).pageInfo.startCursor) < rnk v.commentEditBefore) :
    ∀ (k : Nat) (i : Iterator) (fuel : Nat),
      i.tlCommentEditIndex = -2 →
      ((ceFallbackConn i).nodes.length : Int) - i.ceIndex ≤ (k : Int) →
      2 * k + (N + 1) * (2 * L + 4) + 2 ≤ fuel →
      (commentEditStep ex fuel EditCall.next i).1.isSome := by
  have hA := commentEdit_query_total ex rnk L hL hrank N
  intro k
  induction k using Nat.strong_induction_on with
  | _ k IHk =>
  intro i fuel hmode hk hfuel
  obtain ⟨f, rfl⟩ : ∃ f, fuel = f + 1 := ⟨fuel - 1, by omega⟩
  rw [commentEditStep]
  dsimp only
  split
  · simp
  · split
    · simp
    · split
      · next hlt =>
        obtain ⟨f', rfl⟩ : ∃ g, f = g + 1 := ⟨f - 1, by omega⟩
        rw [commentEditStep]
        split
        · have hk1 : 1 ≤ k := by
            simp only [ceFallbackConn] at hk
            omega
          refine IHk (k - 1) (by omega) _ f' hmode ?_ (by omega)
          simp only [ceFallbackConn] at hk ⊢
          omega
        · simp
      · split
        · simp
        · refine hA _ f (hN _) (by omega)

theorem commentEdit_embedded_walk
    (hN : ∀ c, rnk c ≤ N)
    (hL : ∀ v p, ex.commentEditQ v = Except.ok p → (commentPageConn p).nodes.length ≤ L)
    (hrank : ∀ v p, ex.commentEditQ v = Except.ok p →
      (commentPageConn p).pageInfo.hasPreviousPage = true →
      rnk (some (commentPageConn p).pageInfo.startCursor) < rnk v.commentEditBefore) :
    ∀ (k : Nat) (i : Iterator) (fuel : Nat),
      i.tlCommentEditIndex ≠ -2 → -2 ≤ i.tlCommentEditIndex →
      ((ceEmbeddedConn i).nodes.length : Int) - i.tlCommentEditIndex ≤ (k : Int) →
      2 * k + (N + 1) * (2 * L + 4) + 2 ≤ fuel →
      (commentEditStep ex fuel EditCall.next i).1.isSome := by
  have hA := commentEdit_query_total ex rnk L hL hrank N
  intro k
  induction k using Nat.strong_induction_on with
  | _ k IHk =>
  intro i fuel hmode htl hk hfuel
  obtain ⟨f, rfl⟩ : ∃ f, fuel = f + 1 := ⟨fuel - 1, by omega⟩
  rw [commentEditStep]
  dsimp only
  split
  · simp
  · split
    · simp
    · split
      · simp
      · split
        · next hlt =>
          simp only [ceEmbeddedConn] at hk
          obtain ⟨f', rfl⟩ : ∃ g, f = g + 1 := ⟨f - 1, by omega⟩
          rw [commentEditStep]
          split
          · have hk1 : 1 ≤ k := by omega
            refine IHk (k - 1) (by omega) _ f' ?_ ?_ ?_ (by omega)
            · dsimp only
              omega
            · dsimp only
              omega
            · simp only [ceEmbeddedConn]
              try dsimp only
              omega
          · simp
        · split
          · simp
          · refine hA _ f (hN _) (by omega)

theorem NextCommentEdit_total
    (hN : ∀ c, rnk c ≤ N)
    (hL : ∀ v p, ex.commentEditQ v = Except.ok p → (commentPageConn p).nodes.length ≤ L)
    (hrank : ∀ v p, ex.commentEditQ v = Except.ok p →
      (commentPageConn p).pageInfo.hasPreviousPage = true →
      rnk (some (commentPageConn p).pageInfo.startCursor) < rnk v.commentEditBefore)
    (i : Iterator) (fuel : Nat)
    (htl : -2 ≤ i.tlCommentEditIndex)
    (hfuel : 2 * (((ceEmbeddedConn i).nodes.length : Int) - i.tlCommentEditIndex).toNat +
             2 * (((ceFallbackConn i).nodes.length : Int) - i.ceIndex).toNat +
             (N + 1) * (2 * L + 4) + 2 ≤ fuel) :
    (NextCommentEdit ex fuel i).1.isSome := by
  rw [NextCommentEdit]
  by_cases hmode : i.tlCommentEditIndex = -2
  · refine commentEdit_fallback_walk ex rnk N L hN hL hrank
      (((ceFallbackConn i).nodes.length : Int) - i.ceIndex).toNat i fuel hmode ?_ (by omega)
    omega
  · refine commentEdit_embedded_walk ex rnk N L hN hL hrank
      (((ceEmbeddedConn i).nodes.length : Int) - i.tlCommentEditIndex).toNat i fuel hmode htl
      ?_ (by omega)
    omega

end Termination

/-- C10: for every executor whose backward edit pagination is well-founded
— witnessed by a rank on backward cursors that a successful fetch reporting
a further previous page strictly decreases, a global rank bound `N`, and a
page-size bound `L` — the mutually recursive advance/skip pairs
(`NextIssueEdit` with `nextValidIssueEdit`, and `NextCommentEdit` with
`nextValidCommentEdit`) terminate with a boolean answer from every state
whose phase indices are well-formed (at least `-2`), even when every edit
on one or more consecutive pages has a nil or empty diff: any fuel past the
stated bound is never exhausted. -/
theorem c10_skip_recursion_terminates (ex : Executor) (rnk : Option String → Nat)
    (N L : Nat)
    (hN : ∀ c, rnk c ≤ N)
    (hLie : ∀ v p, ex.issueEditQ v = Except.ok p →
      (p.nodes.getD 0 default).userContentEdits.nodes.length ≤ L)
    (hrankie : ∀ v p, ex.issueEditQ v = Except.ok p →
      (p.nodes.getD 0 default).userContentEdits.pageInfo.hasPreviousPage = true →
      rnk (some (p.nodes.getD 0 default).userContentEdits.pageInfo.startCursor)
        < rnk v.issueEditBefore)
    (hLce : ∀ v p, ex.commentEditQ v = Except.ok p → (commentPageConn p).nodes.length ≤ L)
    (hrankce : ∀ v p, ex.commentEditQ v = Except.ok p →
      (commentPageConn p).pageInfo.hasPreviousPage = true →
      rnk (some (commentPageConn p).pageInfo.startCursor) < rnk v.commentEditBefore)
    (i : Iterator)
    (htlie : -2 ≤ i.tlIssueEditIndex) (htlce : -2 ≤ i.tlCommentEditIndex) :
    (∀ fuel, 2 * (((ieEmbeddedConn i).nodes.length : Int) - i.tlIssueEditIndex).toNat +
        2 * (((ieFallbackConn i).nodes.length : Int) - i.ieIndex).toNat +
        (N + 1) * (2 * L + 4) + 2 ≤ fuel →
      ∃ b, (NextIssueEdit ex fuel i).1 = some b) ∧
    (∀ fuel, 2 * (((ceEmbeddedConn i).nodes.length : Int) - i.tlCommentEditIndex).toNat +
        2 * (((ceFallbackConn i).nodes.length : Int) - i.ceIndex).toNat +
        (N + 1) * (2 * L + 4) + 2 ≤ fuel →
      ∃ b, (NextCommentEdit ex fuel i).1 = some b) := by
  constructor
  · intro fuel hfuel
    exact Option.isSome_iff_exists.mp
      (NextIssueEdit_total ex rnk N L hN hLie hrankie i fuel htlie hfuel)
  · intro fuel hfuel
    exact Option.isSome_iff_exists.mp
      (NextCommentEdit_total ex rnk N L hN hLce hrankce i fuel htlce hfuel)

/-- Witness for C10: the one-page executor with the trivial rank, from the
fresh iterator, with fuel 100. -/
theorem c10_skip_recursion_terminates_witness :
    (∃ b, (NextIssueEdit (editPageExecutor [{ diff := some "d" }]) 100 NewIterator).1
      = some b) ∧
    (∃ b, (NextCommentEdit (editPageExecutor [{ diff := some "d" }]) 100 NewIterator).1
      = some b) := by
  have h := c10_skip_recursion_terminates (editPageExecutor [{ diff := some "d" }])
    (fun _ => 0) 0 1 (fun _ => le_refl 0)
    (by intro v p hp; cases hp; decide)
    (by intro v p hp hprev; cases hp; exact absurd hprev (by decide))
    (by intro v p hp; cases hp; decide)
    (by intro v p hp hprev; cases hp; exact absurd hprev (by decide))
    NewIterator (by decide) (by decide)
  exact ⟨h.1 100 (by decide), h.2 100 (by decide)⟩

end Github
